import Mathlib

/-!
# Admin request handler: `netlify/functions/admin-api.js`

A shallow embedding of the handler and of the functions it calls
(`handleList`, `recordStatus`, `deleteBookingSubmission`,
`sendCustomerEmailGmail`), followed by theorems about the request/response
contract and about the status merge of the listing.

Modelling conventions.

* A JavaScript value that is either `undefined` or a string is an
  `Option String`; `x || d` is `orElse x d`, truthiness is `truthy`.
* A thrown error is its message (`Except String`), because the handler only
  ever reads `e.message`.
* The outside world (the submissions store reached through `fetch`, the mail
  relay reached through `sendMail`, and the library functions `JSON.parse`,
  `new Date` and `String.prototype.toLowerCase`) is a `World`; the answers of
  the collaborators may depend on the calls made so far. The theorems hold for
  every world, hence for the Unicode lowering of JavaScript.
* Every function that talks to the world returns, next to its result, the
  list of collaborator calls made so far, in order.
-/

namespace AdminApi

/-! ## JavaScript helpers -/

/-- The JavaScript expression `x || d`, for `x` either `undefined` or a string. -/
def orElse (x : Option String) (d : String) : String :=
  match x with
  | some s => if s = "" then d else s
  | none => d

/-- JavaScript truthiness of a value that is either `undefined` or a string. -/
def truthy (x : Option String) : Bool :=
  match x with
  | some s => decide (s ≠ "")
  | none => false

/-- The JavaScript expression `x || y` where both sides may be `undefined`. -/
def orUndefined (x y : Option String) : Option String :=
  if truthy x then x else y

/-- ASCII case folding: maps `A`..`Z` to `a`..`z` and leaves every other
character alone. It is used to say that two header names differ by letter case
only, and as the lowering function of the concrete worlds below, whose texts
are ASCII. It is not the model of `String.prototype.toLowerCase`, which is a
field of `World`. -/
def asciiLowerCase (s : String) : String :=
  String.mk (s.data.map Char.toLower)

/-- The code points removed by `String.prototype.trim`: the ECMAScript
`WhiteSpace` and `LineTerminator` productions. -/
def isJsWhiteSpace (c : Char) : Bool :=
  let n := c.toNat
  n = 0x09 || n = 0x0A || n = 0x0B || n = 0x0C || n = 0x0D || n = 0x20 || n = 0xA0
    || n = 0x1680 || (0x2000 ≤ n && n ≤ 0x200A) || n = 0x2028 || n = 0x2029
    || n = 0x202F || n = 0x205F || n = 0x3000 || n = 0xFEFF

/-- Model of `String.prototype.trim`. -/
def trim (s : String) : String :=
  String.mk (((s.data.dropWhile isJsWhiteSpace).reverse.dropWhile isJsWhiteSpace).reverse)

/-! ## Data model -/

/-- The variables read from `process.env`. -/
structure Env where
  ADMIN_KEY : Option String
  NETLIFY_ACCESS_TOKEN : Option String
  SITE_ID : Option String
  URL : Option String
  GMAIL_USER : Option String
  GMAIL_APP_PASSWORD : Option String
  FROM_NAME : Option String
  OWNER_EMAIL : Option String

/-- The object `req.queryStringParameters`. -/
structure QueryParams where
  action : Option String

/-- The request object: `headers` is a plain object read by exact property
name, `body` is the raw text. -/
structure Request where
  httpMethod : String
  headers : String → Option String
  queryStringParameters : Option QueryParams
  body : Option String

/-- The parsed POST body: the properties the program reads, each absent or a
string. -/
structure Body where
  action : Option String
  id : Option String
  customerEmail : Option String
  customerName : Option String
  service : Option String
  start : Option String
  end_ : Option String
  message : Option String

/-- The form data of a submission (`s.data` or `s.fields`). -/
structure Fields where
  booking_id : Option String
  id : Option String
  status : Option String
  message : Option String
  name : Option String
  email : Option String
  phone : Option String
  service : Option String
  start : Option String
  end_ : Option String
  fullDay : Option String

/-- An element of an array answered by the store: a form (`name`, `id`) or a
submission (`id`, `created_at`, `data` or `fields`). -/
structure StoreObj where
  id : Option String
  name : Option String
  created_at : Option String
  data : Option Fields
  fields : Option Fields

/-- The argument of `transporter.sendMail`. -/
structure Mail where
  from_ : String
  to_ : String
  cc : List String
  subject : String
  text : String
deriving DecidableEq

/-- A call to a collaborator: a `fetch` (by method) or a `sendMail`. -/
inductive Call where
  | fetchGet (url : String) (authorization : String)
  | fetchPost (url : String) (payload : List (String × String))
  | fetchDelete (url : String) (authorization : String)
  | sendMail (mail : Mail)
deriving DecidableEq

/-- The value of `r.json()`: an array of objects or any other JSON value. -/
inductive Json where
  | array (xs : List StoreObj)
  | other

/-- The outcome of a `fetch`: it rejects, or it answers with `r.ok` and a
body whose `r.json()` rejects (with a message) or gives a value. -/
inductive FetchReply where
  | rejected (msg : String)
  | response (ok : Bool) (json : Except String Json)

/-- The collaborators and library functions the handler relies on. -/
structure World where
  toLowerCase : String → String
  jsonParse : String → Except String Body
  parseDate : Option String → Option Int
  fetch : List Call → Call → FetchReply
  sendMail : List Call → Mail → Except String Unit

/-- One element of `items` in the listing. -/
structure Item where
  id : Option String
  created_at : Option String
  name : String
  email : String
  phone : String
  service : String
  start : String
  end_ : String
  fullDay : String
  status : String
  admin_note : String
deriving DecidableEq

/-- The object `res` of `handleList`. -/
structure Listing where
  total : Nat
  pending : Nat
  approved : Nat
  denied : Nat
  items : List Item
deriving DecidableEq

/-- The object passed to `JSON.stringify` for the response body:
`{ok:true}`, `{ok:false,error}` or the listing. -/
inductive Payload where
  | ok
  | error (msg : String)
  | listing (res : Listing)
deriving DecidableEq

/-- The value returned by the handler. -/
structure Response where
  statusCode : Nat
  headers : List (String × String)
  body : Payload
deriving DecidableEq

/-- The local helper `json(code, obj, extra)` of the handler. -/
def json (code : Nat) (obj : Payload) (extra : List (String × String)) : Response :=
  { statusCode := code
    headers := [("Content-Type", "application/json"),
                ("Access-Control-Allow-Origin", "*"),
                ("Access-Control-Allow-Headers", "content-type,x-admin-key")] ++ extra
    body := obj }

/-! ## Status recording, deletion, notification -/

/-- The form-encoded payload built by `recordStatus` (before encoding). -/
def statusPayload (body : Body) (action : String) : List (String × String) :=
  [("form-name", "booking-status"),
   ("booking_id", orElse body.id ""),
   ("status", if action = "approve" then "approved"
              else if action = "deny" then "denied" else "cancelled"),
   ("service", orElse body.service ""),
   ("start", orElse body.start ""),
   ("end", orElse body.end_ ""),
   ("customer", orElse body.customerName ""),
   ("message", orElse body.message "")]

/-- The destination of `recordStatus`: `(URL || "").trim() || default`. -/
def postUrl (env : Env) : String :=
  orElse (some (trim (orElse env.URL ""))) "https://mimisanimalcare.com/"

/-- The `fetch` issued by `recordStatus`. -/
def statusCall (env : Env) (body : Body) (action : String) : Call :=
  Call.fetchPost (postUrl env) (statusPayload body action)

/-- The function `recordStatus(body, action)`; `past` is the list of calls made
before it runs. -/
def recordStatus (w : World) (env : Env) (past : List Call) (body : Body) (action : String) :
    Except String Unit × List Call :=
  let c := statusCall env body action
  match w.fetch past c with
  | FetchReply.rejected m => (Except.error m, past ++ [c])
  | FetchReply.response ok _ =>
    if ok then (Except.ok (), past ++ [c])
    else (Except.error "Failed to record status", past ++ [c])

/-- The `fetch` issued by `deleteBookingSubmission`. -/
def deleteCall (env : Env) (submissionId : Option String) : Call :=
  Call.fetchDelete ("https://api.netlify.com/api/v1/submissions/" ++ orElse submissionId "")
    ("Bearer " ++ orElse env.NETLIFY_ACCESS_TOKEN "")

/-- The function `deleteBookingSubmission(submissionId)`. -/
def deleteBookingSubmission (w : World) (env : Env) (past : List Call)
    (submissionId : Option String) : Except String Unit × List Call :=
  if !truthy env.NETLIFY_ACCESS_TOKEN then (Except.error "Missing NETLIFY_ACCESS_TOKEN", past)
  else if !truthy submissionId then (Except.error "Missing submission id", past)
  else
    let c := deleteCall env submissionId
    match w.fetch past c with
    | FetchReply.rejected m => (Except.error m, past ++ [c])
    | FetchReply.response ok _ =>
      if ok then (Except.ok (), past ++ [c])
      else (Except.error "Failed to delete submission", past ++ [c])

/-- The variable `statusLine` of `sendCustomerEmailGmail`. -/
def statusLine (action : String) : String :=
  if action = "approve" then "Approved ✅"
  else if action = "deny" then "Declined"
  else if action = "cancel" then "Cancelled"
  else "Update"

/-- The array `lines` of `sendCustomerEmailGmail`. -/
def mailLines (action : String) (body : Body) : List String :=
  ["Hi " ++ orElse body.customerName "there" ++ ",",
   if action = "approve" then "Good news — your request is approved!"
   else if action = "deny" then
     "Thanks for your request. Unfortunately I’m not available for that time."
   else if action = "cancel" then "Your booking has been cancelled per request."
   else "Here’s an update on your request:",
   "",
   "Service: " ++ orElse body.service "",
   "When: " ++ orElse body.start "" ++ " → " ++ orElse body.end_ ""]
  ++ (if trim (orElse body.message "") ≠ "" then
        ["", "Note from Mimi: " ++ trim (orElse body.message "")] else [])
  ++ ["", "Reply to this email if you have any questions.", "— Mimi"]

/-- The argument `sendCustomerEmailGmail` passes to `transporter.sendMail`. -/
def composeMail (env : Env) (action : String) (body : Body) : Mail :=
  { from_ := "\"" ++ orElse env.FROM_NAME "Mimi\x27s Animal Care" ++ "\" <"
      ++ orElse env.GMAIL_USER "" ++ ">"
    to_ := trim (orElse body.customerEmail "")
    cc := if truthy env.OWNER_EMAIL then [orElse env.OWNER_EMAIL ""] else []
    subject := orElse env.FROM_NAME "Mimi\x27s Animal Care" ++ " — " ++ statusLine action ++ ": "
      ++ orElse body.service ""
    text := String.intercalate "\n" (mailLines action body) }

/-- The function `sendCustomerEmailGmail(action, body)`. -/
def sendCustomerEmailGmail (w : World) (env : Env) (past : List Call) (action : String)
    (body : Body) : Except String Unit × List Call :=
  if !truthy env.GMAIL_USER || !truthy env.GMAIL_APP_PASSWORD then
    (Except.error "Missing GMAIL_USER or GMAIL_APP_PASSWORD", past)
  else if trim (orElse body.customerEmail "") = "" then
    (Except.error "No customerEmail provided", past)
  else
    let mail := composeMail env action body
    match w.sendMail past mail with
    | Except.error m => (Except.error m, past ++ [Call.sendMail mail])
    | Except.ok _ => (Except.ok (), past ++ [Call.sendMail mail])

/-! ## Listing -/

/-- The value stored in `statusMap` for a booking id. -/
structure StatusInfo where
  status : String
  message : String
  updated_at : Option String
deriving DecidableEq

/-- The method `Map.prototype.set`: replaces the value of an existing key in
place, appends a new key at the end. -/
def mapSet (m : List (String × StatusInfo)) (k : String) (v : StatusInfo) :
    List (String × StatusInfo) :=
  match m with
  | [] => [(k, v)]
  | (k1, v1) :: rest => if k1 = k then (k, v) :: rest else (k1, v1) :: mapSet rest k v

/-- The method `Map.prototype.get`; the key may be `undefined`, which is never
a key of `statusMap`. -/
def mapGet (m : List (String × StatusInfo)) (k : Option String) : Option StatusInfo :=
  match k with
  | some key => m.lookup key
  | none => none

/-- The object `{}` read as form data. -/
def noFields : Fields :=
  { booking_id := none, id := none, status := none, message := none, name := none,
    email := none, phone := none, service := none, start := none, end_ := none,
    fullDay := none }

/-- The expression `s?.data || s?.fields || {}`. -/
def formData (s : StoreObj) : Fields :=
  match s.data with
  | some f => f
  | none =>
    match s.fields with
    | some f => f
    | none => noFields

/-- The booking id a status submission carries: `f.booking_id || f.id || ""`. -/
def statusId (s : StoreObj) : String :=
  orElse (formData s).booking_id (orElse (formData s).id "")

/-- The entry a status submission writes into `statusMap`. -/
def statusInfo (w : World) (s : StoreObj) : StatusInfo :=
  { status := w.toLowerCase (orElse (formData s).status "")
    message := orElse (formData s).message ""
    updated_at := s.created_at }

/-- The body of the `statuses.forEach` callback. -/
def statusStep (w : World) (m : List (String × StatusInfo)) (s : StoreObj) :
    List (String × StatusInfo) :=
  if statusId s ≠ "" then mapSet m (statusId s) (statusInfo w s) else m

/-- The map `statusMap` after the `forEach` over `statuses`. The scan follows
the order of the array answered by the store and never reads `created_at`, so
the entry kept for a booking id is the one scanned last; the source comment
above `handleList` calls this "merge latest statuses". -/
def buildStatusMap (w : World) (statuses : List StoreObj) : List (String × StatusInfo) :=
  statuses.foldl (statusStep w) []

/-- The callback of `bookings.map`. -/
def toItem (statusMap : List (String × StatusInfo)) (b : StoreObj) : Item :=
  let f := formData b
  let merged := mapGet statusMap b.id
  { id := b.id
    created_at := b.created_at
    name := orElse f.name ""
    email := orElse f.email ""
    phone := orElse f.phone ""
    service := orElse f.service ""
    start := orElse f.start ""
    end_ := orElse f.end_ ""
    fullDay := orElse f.fullDay "no"
    status := orElse (merged.map StatusInfo.status) (orElse f.status "pending")
    admin_note := orElse (merged.map StatusInfo.message) "" }

/-- The comparator `(a,b) => new Date(b.created_at) - new Date(a.created_at)`;
`none` is `NaN`. Only the sign of the difference matters to `sort`, and the
sign of the difference of two time values is exact. -/
def dateDiff (w : World) (a b : Item) : Option Int :=
  match w.parseDate b.created_at, w.parseDate a.created_at with
  | some tb, some ta => some (tb - ta)
  | _, _ => none

/-- Whether `sort` may leave `a` before `b`: the comparator is not positive
(`sort` reads `NaN` as `0`). -/
def sortLE (cmp : Item → Item → Option Int) (a b : Item) : Bool :=
  match cmp a b with
  | some v => decide (v ≤ 0)
  | none => true

/-- Model of `Array.prototype.sort` with a comparator: a stable sort, which is
what ECMAScript requires; for a consistent comparator every stable sort gives
the same array. -/
def jsSort (cmp : Item → Item → Option Int) (xs : List Item) : List Item :=
  xs.insertionSort (fun a b => sortLE cmp a b = true)

/-- The array `items` of `handleList`. -/
def buildItems (w : World) (bookings statuses : List StoreObj) : List Item :=
  jsSort (dateDiff w) (bookings.map (toItem (buildStatusMap w statuses)))

/-- The filter `i => (i.status || "pending").toLowerCase() === label`. -/
def hasStatus (w : World) (label : String) (i : Item) : Bool :=
  decide (w.toLowerCase (orElse (some i.status) "pending") = label)

/-- The object `res` of `handleList`. -/
def buildListing (w : World) (bookings statuses : List StoreObj) : Listing :=
  let items := buildItems w bookings statuses
  { total := items.length
    pending := (items.filter (hasStatus w "pending")).length
    approved := (items.filter (hasStatus w "approved")).length
    denied := (items.filter (hasStatus w "denied")).length
    items := items }

/-- The expression `await fetch(url, ...).then(r => r.json())`. -/
def fetchJson (w : World) (past : List Call) (c : Call) : Except String Json × List Call :=
  match w.fetch past c with
  | FetchReply.rejected m => (Except.error m, past ++ [c])
  | FetchReply.response _ (Except.error m) => (Except.error m, past ++ [c])
  | FetchReply.response _ (Except.ok j) => (Except.ok j, past ++ [c])

/-- The `fetch` of the forms of the site. -/
def formsCall (env : Env) : Call :=
  Call.fetchGet ("https://api.netlify.com/api/v1/sites/" ++ orElse env.SITE_ID "" ++ "/forms")
    ("Bearer " ++ orElse env.NETLIFY_ACCESS_TOKEN "")

/-- The `fetch` of the submissions of a form; a form without `id` is spelled
`undefined` in the URL. -/
def submissionsCall (env : Env) (form : StoreObj) : Call :=
  Call.fetchGet
    ("https://api.netlify.com/api/v1/forms/" ++ form.id.getD "undefined" ++ "/submissions")
    ("Bearer " ++ orElse env.NETLIFY_ACCESS_TOKEN "")

/-- The expression `form ? await fetch(...).then(r=>r.json()) : []`. -/
def fetchSubmissions (w : World) (env : Env) (past : List Call) (form : Option StoreObj) :
    Except String Json × List Call :=
  match form with
  | some f => fetchJson w past (submissionsCall env f)
  | none => (Except.ok (Json.array []), past)

/-- Lines 67 to 84 of `handleList`: the three reads of the store, giving
`bookings` and `statuses`. -/
def fetchData (w : World) (env : Env) : Except String (Json × Json) × List Call :=
  match fetchJson w [] (formsCall env) with
  | (Except.error m, t1) => (Except.error m, t1)
  | (Except.ok Json.other, t1) => (Except.error "forms.find is not a function", t1)
  | (Except.ok (Json.array forms), t1) =>
    let bookingForm := forms.find? (fun f => decide (f.name = some "booking"))
    let statusForm := forms.find? (fun f => decide (f.name = some "booking-status"))
    match fetchSubmissions w env t1 bookingForm with
    | (Except.error m, t2) => (Except.error m, t2)
    | (Except.ok bookings, t2) =>
      match fetchSubmissions w env t2 statusForm with
      | (Except.error m, t3) => (Except.error m, t3)
      | (Except.ok statuses, t3) => (Except.ok (bookings, statuses), t3)

/-- The function `handleList()`. -/
def handleList (w : World) (env : Env) : Except String Response × List Call :=
  if !truthy env.NETLIFY_ACCESS_TOKEN || !truthy env.SITE_ID then
    (Except.ok { statusCode := 500
                 headers := [("Content-Type", "application/json")]
                 body := Payload.error "Missing NETLIFY_ACCESS_TOKEN or SITE_ID env vars" }, [])
  else
    match fetchData w env with
    | (Except.error m, t) => (Except.error m, t)
    | (Except.ok (_, Json.other), t) => (Except.error "statuses.forEach is not a function", t)
    | (Except.ok (Json.other, Json.array _), t) =>
      (Except.error "bookings.map is not a function", t)
    | (Except.ok (Json.array bookings, Json.array statuses), t) =>
      (Except.ok { statusCode := 200
                   headers := [("Content-Type", "application/json"),
                               ("Access-Control-Allow-Origin", "*")]
                   body := Payload.listing (buildListing w bookings statuses) }, t)

/-! ## The handler -/

/-- The constant `KEY`: `process.env.ADMIN_KEY || ""`. -/
def KEY (env : Env) : String :=
  orElse env.ADMIN_KEY ""

/-- The constant `gotKey`: the header `x-admin-key`, else `X-Admin-Key`. -/
def gotKey (req : Request) : Option String :=
  orUndefined (req.headers "x-admin-key") (req.headers "X-Admin-Key")

/-- The request passes the check `!KEY || gotKey !== KEY`. -/
def authenticated (env : Env) (req : Request) : Bool :=
  decide (KEY env ≠ "") && decide (gotKey req = some (KEY env))

/-- The constant `action`: `(req.queryStringParameters?.action || "").toLowerCase()`. -/
def queryAction (w : World) (req : Request) : String :=
  w.toLowerCase (orElse (req.queryStringParameters.bind QueryParams.action) "")

/-- The POST branch of the handler once the body is parsed. -/
def handlePost (w : World) (env : Env) (body : Body) : Except String Response × List Call :=
  let a := w.toLowerCase (orElse body.action "")
  if ¬ (a ∈ ["approve", "deny", "email", "cancel"]) then
    (Except.ok (json 400 (Payload.error "bad_action") []), [])
  else
    match (if a = "approve" ∨ a = "deny" ∨ a = "cancel" then recordStatus w env [] body a
           else (Except.ok (), [])) with
    | (Except.error m, t1) => (Except.error m, t1)
    | (Except.ok _, t1) =>
      match sendCustomerEmailGmail w env t1 a body with
      | (Except.error m, t2) => (Except.error m, t2)
      | (Except.ok _, t2) =>
        if a = "cancel" then
          match deleteBookingSubmission w env t2 body.id with
          | (Except.error m, t3) => (Except.error m, t3)
          | (Except.ok _, t3) => (Except.ok (json 200 Payload.ok []), t3)
        else (Except.ok (json 200 Payload.ok []), t2)

/-- The `try` block of the handler. A failing `JSON.parse` (or a body that
parses to `null`, whose property read throws) is `Except.error`. -/
def tryBlock (w : World) (env : Env) (req : Request) : Except String Response × List Call :=
  if req.httpMethod = "GET" then
    if queryAction w req = "poll" then (Except.ok (json 200 Payload.ok []), [])
    else if queryAction w req = "list" then handleList w env
    else (Except.ok (json 400 (Payload.error "bad_action") []), [])
  else if req.httpMethod = "POST" then
    match w.jsonParse (orElse req.body "\x7b\x7d") with
    | Except.error m => (Except.error m, [])
    | Except.ok body => handlePost w env body
  else (Except.ok (json 405 (Payload.error "method_not_allowed") []), [])

/-- The exported handler: the response and the collaborator calls made, in
order. -/
def handler (w : World) (env : Env) (req : Request) : Response × List Call :=
  if req.httpMethod = "OPTIONS" then
    (json 200 Payload.ok [("Access-Control-Allow-Methods", "GET,POST,OPTIONS")], [])
  else if KEY env = "" ∨ gotKey req ≠ some (KEY env) then
    (json 401 (Payload.error "unauthorized") [], [])
  else
    match tryBlock w env req with
    | (Except.ok r, t) => (r, t)
    | (Except.error m, t) => (json 500 (Payload.error (orElse (some m) "server_error")) [], t)


/-! ## Predicates used in the statements -/

/-- The `fetch` of call `c`, issued after the calls `past`, answers with an
HTTP-success response (`r.ok`). -/
def fetchOk (w : World) (past : List Call) (c : Call) : Bool :=
  match w.fetch past c with
  | FetchReply.response ok _ => ok
  | FetchReply.rejected _ => false

/-- The calls made by the status-recording step of a POST with action `a`
(line 37 of the source: only approve, deny and cancel record a status). -/
def recordCalls (env : Env) (body : Body) (a : String) : List Call :=
  if a = "approve" ∨ a = "deny" ∨ a = "cancel" then [statusCall env body a] else []

/-- The status a recorded payload carries. -/
def recordedStatus (c : Call) : Option String :=
  match c with
  | Call.fetchPost _ payload => payload.lookup "status"
  | _ => none

/-- The parsed time value of an item, when its `created_at` is a valid date. -/
def timeOf (w : World) (i : Item) : Option Int :=
  w.parseDate i.created_at

/-- Item `a` is at least as recent as item `b`: both dates are valid and the
time value of `a` is greater than or equal to that of `b`. -/
def notOlder (w : World) (a b : Item) : Prop :=
  ∃ ta tb, timeOf w a = some ta ∧ timeOf w b = some tb ∧ tb ≤ ta

/-- The status of an item equals `label` when compared case-insensitively. -/
def statusIs (w : World) (label : String) (i : Item) : Bool :=
  decide (w.toLowerCase i.status = label)

/-- The booking id a recorded payload carries. -/
def recordedBooking (c : Call) : Option String :=
  match c with
  | Call.fetchPost _ payload => payload.lookup "booking_id"
  | _ => none

/-- The URL of a DELETE request. -/
def deletedUrl (c : Call) : Option String :=
  match c with
  | Call.fetchDelete url _ => some url
  | _ => none

/-- The recipient of a mail call. -/
def mailedTo (c : Call) : Option String :=
  match c with
  | Call.sendMail mail => some mail.to_
  | _ => none

/-- The response of a successful listing carrying `res`. -/
def listingResponse (res : Listing) : Response :=
  { statusCode := 200
    headers := [("Content-Type", "application/json"), ("Access-Control-Allow-Origin", "*")]
    body := Payload.listing res }

/-! ## Concrete inputs -/

/-- A body with no property. -/
def emptyBody : Body :=
  { action := none, id := none, customerEmail := none, customerName := none,
    service := none, start := none, end_ := none, message := none }

/-- A body asking to cancel booking `B1`, with the action in upper case. -/
def cancelBody : Body :=
  { emptyBody with action := some "CANCEL", id := some "B1",
                   customerEmail := some " ann@example.org ", service := some "Dog walk" }

/-- A body asking to approve booking `B1`. -/
def approveBody : Body :=
  { emptyBody with action := some "approve", id := some "B1",
                   customerEmail := some "ann@example.org" }

/-- A body with an unknown action. -/
def bogusBody : Body :=
  { emptyBody with action := some "bogus" }

/-- A stand-in for `JSON.parse` that knows four texts. -/
def sampleParse (s : String) : Except String Body :=
  if s = "\x7b\x7d" then Except.ok emptyBody
  else if s = "cancel B1" then Except.ok cancelBody
  else if s = "approve B1" then Except.ok approveBody
  else if s = "bogus" then Except.ok bogusBody
  else Except.error "Unexpected token"

/-- A world in which every collaborator call succeeds. -/
def okWorld : World :=
  { toLowerCase := asciiLowerCase
    jsonParse := sampleParse
    parseDate := fun _ => none
    fetch := fun _ _ => FetchReply.response true (Except.ok Json.other)
    sendMail := fun _ _ => Except.ok () }

/-- A world whose store answers every request with a non-success status. -/
def downWorld : World :=
  { okWorld with fetch := fun _ _ => FetchReply.response false (Except.ok Json.other) }

/-- A world whose store refuses deletions only. -/
def noDeleteWorld : World :=
  { okWorld with
    fetch := fun _ c =>
      match c with
      | Call.fetchDelete _ _ => FetchReply.response false (Except.ok Json.other)
      | _ => FetchReply.response true (Except.ok Json.other) }

/-- An environment with every variable set. -/
def fullEnv : Env :=
  { ADMIN_KEY := some "secret", NETLIFY_ACCESS_TOKEN := some "tok", SITE_ID := some "site",
    URL := none, GMAIL_USER := some "mimi@example.org", GMAIL_APP_PASSWORD := some "pw",
    FROM_NAME := none, OWNER_EMAIL := none }

/-- A request with the given method, query action and body, carrying the
header `name` with value `value`. -/
def mkRequest (method name value : String) (action : Option String) (body : Option String) :
    Request :=
  { httpMethod := method
    headers := fun n => if n = name then some value else none
    queryStringParameters := some { action := action }
    body := body }

/-- An authenticated POST whose body is the text `raw`. -/
def postRequest (raw : String) : Request :=
  mkRequest "POST" "x-admin-key" "secret" none (some raw)

/-- An authenticated GET with the given query action, the key being carried
under the spelling `X-Admin-Key`. -/
def getRequest (action : String) : Request :=
  mkRequest "GET" "X-Admin-Key" "secret" (some action) none

/-- A stand-in for `new Date` that knows three days. -/
def sampleDate (s : Option String) : Option Int :=
  match s with
  | some t =>
    if t = "2024-01-01" then some 1704067200000
    else if t = "2024-01-02" then some 1704153600000
    else if t = "2024-01-03" then some 1704240000000
    else none
  | none => none

/-- A booking submission with the given id, creation date and own `status`
field. -/
def bookingSubmission (id created : String) (status : Option String) : StoreObj :=
  { id := some id, name := none, created_at := some created
    data := some { noFields with name := some "Ann", status := status }
    fields := none }

/-- A status submission for booking `bookingId`. -/
def statusSubmission (bookingId status message created : String) : StoreObj :=
  { id := some "S", name := none, created_at := some created
    data := some { noFields with booking_id := some bookingId, status := some status,
                                 message := some message }
    fields := none }

/-- A form of the site. -/
def form (name id : String) : StoreObj :=
  { id := some id, name := some name, created_at := none, data := none, fields := none }

/-- Three bookings: B1 and B2 without a status of their own, B3 carrying the
status "weird". -/
def sampleBookings : List StoreObj :=
  [bookingSubmission "B1" "2024-01-02" none,
   bookingSubmission "B2" "2024-01-03" none,
   bookingSubmission "B3" "2024-01-01" (some "weird")]

/-- Two status submissions for B1: the store lists the newer "Approved" first
and the older "DENIED" last. -/
def sampleStatuses : List StoreObj :=
  [statusSubmission "B1" "Approved" "see you then" "2024-01-03",
   statusSubmission "B1" "DENIED" "sorry" "2024-01-02"]

/-- A store holding `sampleBookings` under the form "booking" and the given
status submissions under the form "booking-status". -/
def listWorld (statuses : List StoreObj) : World :=
  { toLowerCase := asciiLowerCase
    jsonParse := sampleParse
    parseDate := sampleDate
    fetch := fun _ c =>
      match c with
      | Call.fetchGet url _ =>
        if url = "https://api.netlify.com/api/v1/sites/site/forms" then
          FetchReply.response true
            (Except.ok (Json.array [form "booking" "F1", form "booking-status" "F2"]))
        else if url = "https://api.netlify.com/api/v1/forms/F1/submissions" then
          FetchReply.response true (Except.ok (Json.array sampleBookings))
        else if url = "https://api.netlify.com/api/v1/forms/F2/submissions" then
          FetchReply.response true (Except.ok (Json.array statuses))
        else FetchReply.response false (Except.ok Json.other)
      | _ => FetchReply.response true (Except.ok Json.other)
    sendMail := fun _ _ => Except.ok () }

/-- One status submission, approving B1. -/
def approvedStatuses : List StoreObj :=
  [statusSubmission "B1" "Approved" "see you then" "2024-01-03"]

/-! ## Shared lemmas -/

theorem handler_of_authenticated (w : World) (env : Env) (req : Request)
    (hauth : authenticated env req = true) (hm : req.httpMethod ≠ "OPTIONS") :
    handler w env req =
      match tryBlock w env req with
      | (Except.ok r, t) => (r, t)
      | (Except.error m, t) =>
        (json 500 (Payload.error (orElse (some m) "server_error")) [], t) := by
  have h : KEY env ≠ "" ∧ gotKey req = some (KEY env) := by
    simpa [authenticated] using hauth
  simp [handler, hm, h.1, h.2]

theorem handleList_status (w : World) (env : Env) (r : Response) (t : List Call)
    (h : handleList w env = (Except.ok r, t)) : r.statusCode = 200 ∨ r.statusCode = 500 := by
  unfold handleList at h
  split at h
  · simp only [Prod.mk.injEq, Except.ok.injEq] at h
    rw [← h.1]; right; rfl
  · split at h <;> simp only [Prod.mk.injEq, Except.ok.injEq, reduceCtorEq, false_and] at h
    rw [← h.1]; left; rfl

theorem handlePost_status (w : World) (env : Env) (body : Body) (r : Response) (t : List Call)
    (h : handlePost w env body = (Except.ok r, t)) : r.statusCode = 200 ∨ r.statusCode = 400 := by
  unfold handlePost at h
  dsimp only at h
  split at h
  · simp only [Prod.mk.injEq, Except.ok.injEq] at h
    rw [← h.1]; right; rfl
  · split at h
    · simp at h
    · split at h
      · simp at h
      · split at h
        · split at h
          · simp at h
          · simp only [Prod.mk.injEq, Except.ok.injEq] at h
            rw [← h.1]; left; rfl
        · simp only [Prod.mk.injEq, Except.ok.injEq] at h
          rw [← h.1]; left; rfl

theorem tryBlock_status (w : World) (env : Env) (req : Request) (r : Response) (t : List Call)
    (h : tryBlock w env req = (Except.ok r, t)) : r.statusCode ≠ 401 := by
  unfold tryBlock at h
  split at h
  · split at h
    · simp only [Prod.mk.injEq, Except.ok.injEq] at h
      rw [← h.1]; decide
    · split at h
      · rcases handleList_status w env r t h with h1 | h1 <;> rw [h1] <;> decide
      · simp only [Prod.mk.injEq, Except.ok.injEq] at h
        rw [← h.1]; decide
  · split at h
    · split at h
      · simp at h
      · rcases handlePost_status w env _ r t h with h1 | h1 <;> rw [h1] <;> decide
    · simp only [Prod.mk.injEq, Except.ok.injEq] at h
      rw [← h.1]; decide

/-! ## Authentication -/

/-- C1: a request whose method is not OPTIONS and for which the configured key
is empty, or no header with a name spelling x-admin-key in any letter case is
present, or the key the handler reads differs from the configured key, is
answered 401 with body ok:false, error "unauthorized", and no collaborator
call is made, whatever the world, the method, the query and the body. -/
theorem handler_unauthorized (w : World) (env : Env) (req : Request)
    (hm : req.httpMethod ≠ "OPTIONS")
    (h : KEY env = "" ∨ (∀ n, asciiLowerCase n = "x-admin-key" → req.headers n = none)
      ∨ gotKey req ≠ some (KEY env)) :
    handler w env req = (json 401 (Payload.error "unauthorized") [], []) := by
  have hk : KEY env = "" ∨ gotKey req ≠ some (KEY env) := by
    rcases h with h | h | h
    · exact Or.inl h
    · right
      have h1 := h "x-admin-key" (by decide)
      have h2 := h "X-Admin-Key" (by decide)
      simp [gotKey, orUndefined, h1, h2, truthy]
    · exact Or.inr h
  simp only [handler, if_neg hm, if_pos hk]

/-- Witness of C1: a POST asking to approve a booking, presented with a wrong
key in a world where everything would succeed, is answered 401 without any
call. -/
theorem handler_unauthorized_witness :
    (mkRequest "POST" "x-admin-key" "wrong" none (some "approve B1")).httpMethod ≠ "OPTIONS"
    ∧ gotKey (mkRequest "POST" "x-admin-key" "wrong" none (some "approve B1"))
        ≠ some (KEY fullEnv)
    ∧ handler okWorld fullEnv (mkRequest "POST" "x-admin-key" "wrong" none (some "approve B1"))
        = (json 401 (Payload.error "unauthorized") [], []) :=
  ⟨by decide, by decide,
   handler_unauthorized okWorld fullEnv
     (mkRequest "POST" "x-admin-key" "wrong" none (some "approve B1"))
     (by decide) (Or.inr (Or.inr (by decide)))⟩

/-- C2, counterexample: a GET poll carrying the header under the spelling
X-ADMIN-KEY, with a value equal to the non-empty configured key, is answered
401. -/
theorem handler_upper_case_header_rejected :
    asciiLowerCase "X-ADMIN-KEY" = "x-admin-key"
    ∧ (mkRequest "GET" "X-ADMIN-KEY" "secret" (some "poll") none).headers "X-ADMIN-KEY"
        = some (KEY fullEnv)
    ∧ KEY fullEnv ≠ ""
    ∧ (mkRequest "GET" "X-ADMIN-KEY" "secret" (some "poll") none).httpMethod ≠ "OPTIONS"
    ∧ (handler okWorld fullEnv (mkRequest "GET" "X-ADMIN-KEY" "secret" (some "poll") none)).1
        = json 401 (Payload.error "unauthorized") [] := by
  decide

/-- C2, amended: the header is read under exactly two spellings, x-admin-key
first and X-Admin-Key when the former is absent or empty; a request whose
method is not OPTIONS and which carries the non-empty configured key that way
passes the check and is not answered 401. -/
theorem handler_two_spellings_authenticated (w : World) (env : Env) (req : Request)
    (hm : req.httpMethod ≠ "OPTIONS") (hk : KEY env ≠ "")
    (h : req.headers "x-admin-key" = some (KEY env)
      ∨ (truthy (req.headers "x-admin-key") = false
          ∧ req.headers "X-Admin-Key" = some (KEY env))) :
    authenticated env req = true ∧ (handler w env req).1.statusCode ≠ 401 := by
  have hg : gotKey req = some (KEY env) := by
    rcases h with h | ⟨h1, h2⟩
    · simp [gotKey, orUndefined, h, truthy, hk]
    · simp [gotKey, orUndefined, h1, h2]
  have ha : authenticated env req = true := by simp [authenticated, hk, hg]
  refine ⟨ha, ?_⟩
  rw [handler_of_authenticated w env req ha hm]
  rcases hres : tryBlock w env req with ⟨res, t⟩
  cases res with
  | ok r => exact tryBlock_status w env req r t hres
  | error m => simp [json]

/-! ## Shared lemmas on the POST branch -/

theorem handler_post (w : World) (env : Env) (req : Request) (body : Body)
    (hauth : authenticated env req = true) (hm : req.httpMethod = "POST")
    (hparse : w.jsonParse (orElse req.body "\x7b\x7d") = Except.ok body) :
    handler w env req =
      match handlePost w env body with
      | (Except.ok r, t) => (r, t)
      | (Except.error m, t) =>
        (json 500 (Payload.error (orElse (some m) "server_error")) [], t) := by
  have h1 : req.httpMethod ≠ "OPTIONS" := by rw [hm]; decide
  have h2 : req.httpMethod ≠ "GET" := by rw [hm]; decide
  rw [handler_of_authenticated w env req hauth h1]
  simp only [tryBlock, if_neg h2, if_pos hm, hparse]

theorem recordStatus_ok (w : World) (env : Env) (past : List Call) (body : Body) (a : String)
    (h : fetchOk w past (statusCall env body a) = true) :
    recordStatus w env past body a = (Except.ok (), past ++ [statusCall env body a]) := by
  unfold fetchOk at h
  simp only [recordStatus]
  cases hf : w.fetch past (statusCall env body a) with
  | rejected m => simp [hf] at h
  | response ok j => simp_all

theorem recordStatus_fail (w : World) (env : Env) (past : List Call) (body : Body) (a : String)
    (h : fetchOk w past (statusCall env body a) = false) :
    ∃ m, recordStatus w env past body a = (Except.error m, past ++ [statusCall env body a])
      ∧ (∀ j, w.fetch past (statusCall env body a) = FetchReply.response false j
          → m = "Failed to record status") := by
  unfold fetchOk at h
  simp only [recordStatus]
  cases hf : w.fetch past (statusCall env body a) with
  | rejected m => exact ⟨m, rfl, by simp⟩
  | response ok j =>
    refine ⟨"Failed to record status", ?_, fun _ _ => rfl⟩
    rw [hf] at h
    simp only at h
    simp [h]

theorem sendCustomerEmailGmail_ok (w : World) (env : Env) (past : List Call) (a : String)
    (body : Body)
    (hcred : truthy env.GMAIL_USER = true ∧ truthy env.GMAIL_APP_PASSWORD = true)
    (hto : trim (orElse body.customerEmail "") ≠ "")
    (hmail : w.sendMail past (composeMail env a body) = Except.ok ()) :
    sendCustomerEmailGmail w env past a body
      = (Except.ok (), past ++ [Call.sendMail (composeMail env a body)]) := by
  simp [sendCustomerEmailGmail, hcred.1, hcred.2, hto, hmail]

theorem deleteBookingSubmission_ok (w : World) (env : Env) (past : List Call)
    (id : Option String) (htok : truthy env.NETLIFY_ACCESS_TOKEN = true)
    (hid : truthy id = true) (h : fetchOk w past (deleteCall env id) = true) :
    deleteBookingSubmission w env past id = (Except.ok (), past ++ [deleteCall env id]) := by
  unfold fetchOk at h
  simp only [deleteBookingSubmission]
  cases hf : w.fetch past (deleteCall env id) with
  | rejected m => simp [hf] at h
  | response ok j => simp_all

theorem deleteBookingSubmission_fail (w : World) (env : Env) (past : List Call)
    (id : Option String)
    (h : truthy env.NETLIFY_ACCESS_TOKEN = false ∨ truthy id = false
      ∨ fetchOk w past (deleteCall env id) = false) :
    ∃ m, deleteBookingSubmission w env past id
      = (Except.error m,
         past ++ (if truthy env.NETLIFY_ACCESS_TOKEN && truthy id then [deleteCall env id]
                  else [])) := by
  simp only [deleteBookingSubmission]
  cases htok : truthy env.NETLIFY_ACCESS_TOKEN with
  | false => exact ⟨"Missing NETLIFY_ACCESS_TOKEN", by simp⟩
  | true =>
    cases hid : truthy id with
    | false => exact ⟨"Missing submission id", by simp⟩
    | true =>
      have hf : fetchOk w past (deleteCall env id) = false := by
        rcases h with h | h | h
        · simp [htok] at h
        · simp [hid] at h
        · exact h
      unfold fetchOk at hf
      cases hw : w.fetch past (deleteCall env id) with
      | rejected m => exact ⟨m, by simp⟩
      | response ok j =>
        refine ⟨"Failed to delete submission", ?_⟩
        rw [hw] at hf
        simp only at hf
        simp [hf]

theorem truthy_some (x : Option String) (h : truthy x = true) :
    ∃ s, x = some s ∧ s ≠ "" ∧ ∀ d, orElse x d = s := by
  cases x with
  | none => simp [truthy] at h
  | some s =>
    have hs : s ≠ "" := by simpa [truthy] using h
    exact ⟨s, rfl, hs, fun d => by simp [orElse, hs]⟩

/-! ## POST actions -/

/-- C3: an authenticated POST whose lower-cased body action is approve, deny,
email or cancel, in a world where each collaborator call this request makes
succeeds (the status write answers with success, the mail credentials are
set, customerEmail is not blank, the mail is accepted, and for cancel the
store token and the id are set and the deletion answers with success), is
answered 200 with body ok:true, and the calls are exactly: for approve the
write of status "approved" then the mail; for deny the write of "denied" then
the mail; for email the mail alone; for cancel the write of "cancelled", the
mail, then the DELETE request whose URL ends in the submission id body.id,
authorised with the store token. The status write carries body.id as
booking_id and the mail goes to the trimmed customerEmail. -/
theorem handler_post_success (w : World) (env : Env) (req : Request) (body : Body) (a : String)
    (hauth : authenticated env req = true) (hm : req.httpMethod = "POST")
    (hparse : w.jsonParse (orElse req.body "\x7b\x7d") = Except.ok body)
    (ha : w.toLowerCase (orElse body.action "") = a)
    (hmem : a ∈ ["approve", "deny", "email", "cancel"])
    (hrec : ∀ c ∈ recordCalls env body a, fetchOk w [] c = true)
    (hcred : truthy env.GMAIL_USER = true ∧ truthy env.GMAIL_APP_PASSWORD = true)
    (hto : trim (orElse body.customerEmail "") ≠ "")
    (hmail : w.sendMail (recordCalls env body a) (composeMail env a body) = Except.ok ())
    (hdel : a = "cancel" →
      truthy env.NETLIFY_ACCESS_TOKEN = true ∧ truthy body.id = true
      ∧ fetchOk w (recordCalls env body a ++ [Call.sendMail (composeMail env a body)])
          (deleteCall env body.id) = true) :
    (handler w env req).1 = json 200 Payload.ok []
    ∧ mailedTo (Call.sendMail (composeMail env a body))
        = some (trim (orElse body.customerEmail ""))
    ∧ recordedBooking (statusCall env body a) = some (orElse body.id "")
    ∧ (a = "approve" →
        (handler w env req).2
          = [statusCall env body a, Call.sendMail (composeMail env a body)]
        ∧ recordedStatus (statusCall env body a) = some "approved")
    ∧ (a = "deny" →
        (handler w env req).2
          = [statusCall env body a, Call.sendMail (composeMail env a body)]
        ∧ recordedStatus (statusCall env body a) = some "denied")
    ∧ (a = "email" → (handler w env req).2 = [Call.sendMail (composeMail env a body)])
    ∧ (a = "cancel" →
        ∃ id tok, body.id = some id ∧ env.NETLIFY_ACCESS_TOKEN = some tok
          ∧ (handler w env req).2
              = [statusCall env body a, Call.sendMail (composeMail env a body),
                 Call.fetchDelete ("https://api.netlify.com/api/v1/submissions/" ++ id)
                   ("Bearer " ++ tok)]
          ∧ recordedStatus (statusCall env body a) = some "cancelled") := by
  rw [handler_post w env req body hauth hm hparse]
  have key : handlePost w env body
      = (Except.ok (json 200 Payload.ok []),
         recordCalls env body a ++ [Call.sendMail (composeMail env a body)]
           ++ (if a = "cancel" then [deleteCall env body.id] else [])) := by
    simp only [List.mem_cons, List.mem_singleton, List.not_mem_nil, or_false] at hmem
    rcases hmem with rfl | rfl | rfl | rfl
    · have h1 := recordStatus_ok w env [] body "approve" (hrec _ (by simp [recordCalls]))
      have h2 := sendCustomerEmailGmail_ok w env _ "approve" body hcred hto hmail
      simp only [recordCalls, true_or, if_true] at h2
      simp only [handlePost, ha]
      simp [h1, h2, recordCalls]
    · have h1 := recordStatus_ok w env [] body "deny" (hrec _ (by simp [recordCalls]))
      have h2 := sendCustomerEmailGmail_ok w env _ "deny" body hcred hto hmail
      simp only [recordCalls, true_or, or_true, if_true] at h2
      simp only [handlePost, ha]
      simp [h1, h2, recordCalls]
    · have h2 := sendCustomerEmailGmail_ok w env _ "email" body hcred hto hmail
      have hne : ¬ ("email" = "approve" ∨ "email" = "deny" ∨ "email" = "cancel") := by decide
      simp only [recordCalls, if_neg hne] at h2
      simp only [handlePost, ha]
      simp [h2, recordCalls]
    · have h1 := recordStatus_ok w env [] body "cancel" (hrec _ (by simp [recordCalls]))
      have h2 := sendCustomerEmailGmail_ok w env _ "cancel" body hcred hto hmail
      obtain ⟨d1, d2, d3⟩ := hdel rfl
      have h3 := deleteBookingSubmission_ok w env _ body.id d1 d2 d3
      simp only [recordCalls, or_true, if_true, List.cons_append, List.nil_append] at h2 h3
      simp only [handlePost, ha]
      simp [h1, h2, h3, recordCalls]
  rw [key]
  refine ⟨rfl, rfl, rfl, ?_, ?_, ?_, ?_⟩
  · intro he
    subst he
    exact ⟨by simp [recordCalls], rfl⟩
  · intro he
    subst he
    exact ⟨by simp [recordCalls], rfl⟩
  · intro he
    subst he
    simp [recordCalls]
  · intro he
    subst he
    obtain ⟨d1, d2, _⟩ := hdel rfl
    obtain ⟨id, hid, _, hido⟩ := truthy_some body.id d2
    obtain ⟨tok, htok, _, htoko⟩ := truthy_some env.NETLIFY_ACCESS_TOKEN d1
    refine ⟨id, tok, hid, htok, ?_, rfl⟩
    simp [recordCalls, deleteCall, hido, htoko]

/-- Witness of C3: a cancel of booking B1 (action spelled CANCEL) in a world
where every call succeeds is answered 200 and makes the three calls in order:
the write of "cancelled" for B1, the mail to the trimmed address, and the
DELETE of submission B1. -/
theorem handler_post_success_witness :
    (handler okWorld fullEnv (postRequest "cancel B1")).1 = json 200 Payload.ok []
    ∧ (handler okWorld fullEnv (postRequest "cancel B1")).2
        = [statusCall fullEnv cancelBody "cancel",
           Call.sendMail (composeMail fullEnv "cancel" cancelBody),
           Call.fetchDelete "https://api.netlify.com/api/v1/submissions/B1" "Bearer tok"]
    ∧ recordedStatus (statusCall fullEnv cancelBody "cancel") = some "cancelled"
    ∧ recordedBooking (statusCall fullEnv cancelBody "cancel") = some "B1"
    ∧ mailedTo (Call.sendMail (composeMail fullEnv "cancel" cancelBody))
        = some "ann@example.org" :=
  have h := handler_post_success okWorld fullEnv (postRequest "cancel B1") cancelBody "cancel"
    (by decide) rfl rfl (by decide) (by decide) (fun _ _ => rfl) ⟨by decide, by decide⟩
    (by decide) rfl (fun _ => ⟨by decide, by decide, rfl⟩)
  ⟨h.1, by decide, by decide, by decide, by decide⟩

/-- C4: an authenticated POST whose lower-cased body action is approve, deny
or cancel, and whose status write fails (the destination answers with a
non-success status, or the request is rejected), is answered 500 with
ok:false; the status write is the only collaborator call made, so no mail is
sent and no submission is deleted. When the destination answered with a
non-success status the error is "Failed to record status". -/
theorem handler_record_failure (w : World) (env : Env) (req : Request) (body : Body)
    (a : String)
    (hauth : authenticated env req = true) (hm : req.httpMethod = "POST")
    (hparse : w.jsonParse (orElse req.body "\x7b\x7d") = Except.ok body)
    (ha : w.toLowerCase (orElse body.action "") = a)
    (hmem : a = "approve" ∨ a = "deny" ∨ a = "cancel")
    (hfail : fetchOk w [] (statusCall env body a) = false) :
    (handler w env req).1.statusCode = 500
    ∧ (∃ msg, (handler w env req).1.body = Payload.error msg)
    ∧ (handler w env req).2 = [statusCall env body a]
    ∧ (∀ j, w.fetch [] (statusCall env body a) = FetchReply.response false j →
        (handler w env req).1 = json 500 (Payload.error "Failed to record status") []) := by
  rw [handler_post w env req body hauth hm hparse]
  obtain ⟨m, h1, h2⟩ := recordStatus_fail w env [] body a hfail
  have hin : a ∈ ["approve", "deny", "email", "cancel"] := by
    rcases hmem with h | h | h <;> simp [h]
  simp only [handlePost, ha, hin, not_true_eq_false, if_false, if_pos hmem, h1,
    List.nil_append]
  refine ⟨rfl, ⟨_, rfl⟩, trivial, ?_⟩
  intro j hj
  rw [h2 j hj]
  rfl

/-- Witness of C4: approving B1 while the store answers with a non-success
status gives 500 "Failed to record status" after the status write alone. -/
theorem handler_record_failure_witness :
    handler downWorld fullEnv (postRequest "approve B1")
      = (json 500 (Payload.error "Failed to record status") [],
         [statusCall fullEnv approveBody "approve"]) :=
  have h := handler_record_failure downWorld fullEnv (postRequest "approve B1") approveBody
    "approve" (by decide) rfl rfl (by decide) (Or.inl rfl) rfl
  Prod.ext (h.2.2.2 _ rfl) h.2.2.1

/-- C5: an authenticated POST whose lower-cased body action is cancel, whose
status write and mail both succeed and whose deletion fails (the store token
is missing, the submission id is empty, or the store does not answer with
success), is answered 500 with ok:false; the calls are exactly the write of
status "cancelled", then the mail, then the delete request when one was
issued, and nothing after it. -/
theorem handler_cancel_delete_failure (w : World) (env : Env) (req : Request) (body : Body)
    (hauth : authenticated env req = true) (hm : req.httpMethod = "POST")
    (hparse : w.jsonParse (orElse req.body "\x7b\x7d") = Except.ok body)
    (ha : w.toLowerCase (orElse body.action "") = "cancel")
    (hrec : fetchOk w [] (statusCall env body "cancel") = true)
    (hcred : truthy env.GMAIL_USER = true ∧ truthy env.GMAIL_APP_PASSWORD = true)
    (hto : trim (orElse body.customerEmail "") ≠ "")
    (hmail : w.sendMail [statusCall env body "cancel"] (composeMail env "cancel" body)
      = Except.ok ())
    (hdel : truthy env.NETLIFY_ACCESS_TOKEN = false ∨ truthy body.id = false
      ∨ fetchOk w [statusCall env body "cancel",
                   Call.sendMail (composeMail env "cancel" body)]
          (deleteCall env body.id) = false) :
    (handler w env req).1.statusCode = 500
    ∧ (∃ msg, (handler w env req).1.body = Payload.error msg)
    ∧ (handler w env req).2
        = [statusCall env body "cancel", Call.sendMail (composeMail env "cancel" body)]
          ++ (if truthy env.NETLIFY_ACCESS_TOKEN && truthy body.id
              then [deleteCall env body.id] else [])
    ∧ recordedStatus (statusCall env body "cancel") = some "cancelled" := by
  rw [handler_post w env req body hauth hm hparse]
  have h1 := recordStatus_ok w env [] body "cancel" hrec
  have h2 := sendCustomerEmailGmail_ok w env [statusCall env body "cancel"] "cancel" body
    hcred hto hmail
  obtain ⟨m, h3⟩ := deleteBookingSubmission_fail w env
    [statusCall env body "cancel", Call.sendMail (composeMail env "cancel" body)] body.id hdel
  simp only [List.cons_append, List.nil_append] at h1 h2
  simp only [handlePost, ha]
  simp [h1, h2, h3]
  exact ⟨rfl, ⟨_, rfl⟩, rfl⟩

/-- Witness of C5: cancelling B1 while the store refuses deletions gives 500
after the status write, the mail and the refused delete request. -/
theorem handler_cancel_delete_failure_witness :
    (handler noDeleteWorld fullEnv (postRequest "cancel B1")).1.statusCode = 500
    ∧ (handler noDeleteWorld fullEnv (postRequest "cancel B1")).2
        = [statusCall fullEnv cancelBody "cancel",
           Call.sendMail (composeMail fullEnv "cancel" cancelBody),
           deleteCall fullEnv (some "B1")] :=
  have h := handler_cancel_delete_failure noDeleteWorld fullEnv (postRequest "cancel B1")
    cancelBody (by decide) rfl rfl (by decide) rfl ⟨by decide, by decide⟩ (by decide) rfl
    (Or.inr (Or.inr rfl))
  ⟨h.1, h.2.2.1⟩

/-- C6: an authenticated GET whose lower-cased query action is neither poll
nor list, and an authenticated POST whose body parses and whose lower-cased
action (the empty string when absent) is none of approve, deny, email and
cancel, are answered 400 with body ok:false, error "bad_action", and no
collaborator call is made. -/
theorem handler_bad_action (w : World) (env : Env) (req : Request)
    (hauth : authenticated env req = true)
    (h : (req.httpMethod = "GET" ∧ queryAction w req ≠ "poll" ∧ queryAction w req ≠ "list")
      ∨ (req.httpMethod = "POST"
          ∧ ∃ body, w.jsonParse (orElse req.body "\x7b\x7d") = Except.ok body
            ∧ w.toLowerCase (orElse body.action "") ∉ ["approve", "deny", "email", "cancel"])) :
    handler w env req = (json 400 (Payload.error "bad_action") [], []) := by
  rcases h with ⟨hm, h1, h2⟩ | ⟨hm, body, hparse, ha⟩
  · have hne : req.httpMethod ≠ "OPTIONS" := by rw [hm]; decide
    rw [handler_of_authenticated w env req hauth hne]
    simp only [tryBlock, if_pos hm, if_neg h1, if_neg h2]
  · rw [handler_post w env req body hauth hm hparse]
    simp only [handlePost, ha, not_false_eq_true, if_true]

/-- Witness of C6: a POST with action "bogus" in a world where every call
would succeed is answered 400 without any call. -/
theorem handler_bad_action_witness :
    handler okWorld fullEnv (postRequest "bogus")
      = (json 400 (Payload.error "bad_action") [], []) :=
  handler_bad_action okWorld fullEnv (postRequest "bogus") (by decide)
    (Or.inr ⟨rfl, bogusBody, rfl, by decide⟩)

/-- Witness of the amended C2: a GET poll carrying the key under the spelling
X-Admin-Key passes the check. -/
theorem handler_two_spellings_authenticated_witness :
    authenticated fullEnv (getRequest "poll") = true
    ∧ (handler okWorld fullEnv (getRequest "poll")).1.statusCode ≠ 401 :=
  handler_two_spellings_authenticated okWorld fullEnv (getRequest "poll") (by decide)
    (by decide) (Or.inr ⟨by decide, by decide⟩)

/-! ## Shared lemmas on the listing -/

theorem orElse_ne_empty (x : Option String) (d : String) (hd : d ≠ "") : orElse x d ≠ "" := by
  unfold orElse
  cases x with
  | none => exact hd
  | some s =>
    by_cases h : s = ""
    · simp [h, hd]
    · simp [h]

theorem orElse_some_of_ne (s d : String) (h : s ≠ "") : orElse (some s) d = s := by
  simp [orElse, h]

theorem asciiLowerCase_ne_empty (s : String) (h : s ≠ "") : asciiLowerCase s ≠ "" := by
  intro hl
  apply h
  have hd : (asciiLowerCase s).data = [] := by rw [hl]
  simp only [asciiLowerCase, List.map_eq_nil_iff] at hd
  exact String.ext hd

theorem lookup_cons_ite (k1 k2 : String) (v2 : StatusInfo) (rest : List (String × StatusInfo)) :
    List.lookup k1 ((k2, v2) :: rest) = if k1 = k2 then some v2 else List.lookup k1 rest := by
  by_cases h : k1 = k2
  · subst h
    simp
  · have hb : (k1 == k2) = false := by simpa using h
    simp [List.lookup, hb, h]

theorem lookup_mapSet (m : List (String × StatusInfo)) (k k1 : String) (v : StatusInfo) :
    (mapSet m k v).lookup k1 = if k1 = k then some v else m.lookup k1 := by
  induction m with
  | nil => simp [mapSet, lookup_cons_ite]
  | cons p rest ih =>
    obtain ⟨k2, v2⟩ := p
    by_cases h2 : k2 = k
    · subst h2
      by_cases h : k1 = k2
      · simp [mapSet, lookup_cons_ite, h]
      · simp [mapSet, lookup_cons_ite, h]
    · by_cases h : k1 = k
      · subst h
        have hne : ¬ k1 = k2 := fun e => h2 e.symm
        simp [mapSet, lookup_cons_ite, h2, hne, ih]
      · by_cases h3 : k1 = k2
        · simp [mapSet, lookup_cons_ite, h2, h, h3]
        · simp [mapSet, lookup_cons_ite, h2, h, h3, ih]

theorem lookup_statusStep_of_ne (w : World) (m : List (String × StatusInfo)) (s : StoreObj) (k : String)
    (h : statusId s ≠ "" → statusId s ≠ k) : (statusStep w m s).lookup k = m.lookup k := by
  unfold statusStep
  by_cases he : statusId s = ""
  · simp [he]
  · have hk : ¬ k = statusId s := fun e => h he e.symm
    simp [he, lookup_mapSet, hk]

theorem lookup_foldl_statusStep_of_ne (w : World) (post : List StoreObj) (m : List (String × StatusInfo))
    (k : String) (h : ∀ t ∈ post, statusId t ≠ "" → statusId t ≠ k) :
    (post.foldl (statusStep w) m).lookup k = m.lookup k := by
  induction post generalizing m with
  | nil => rfl
  | cons t rest ih =>
    rw [List.foldl_cons, ih _ (fun u hu => h u (List.mem_cons_of_mem _ hu))]
    exact lookup_statusStep_of_ne w m t k (h t (List.mem_cons_self _ _))

theorem lookup_buildStatusMap_last (w : World) (pre post : List StoreObj) (s : StoreObj) (k : String)
    (hs : statusId s = k) (hk : k ≠ "") (hlast : ∀ t ∈ post, statusId t ≠ k) :
    (buildStatusMap w (pre ++ s :: post)).lookup k = some (statusInfo w s) := by
  unfold buildStatusMap
  rw [List.foldl_append, List.foldl_cons,
    lookup_foldl_statusStep_of_ne w post _ k (fun t ht _ => hlast t ht)]
  simp [statusStep, hs, hk, lookup_mapSet]

theorem mem_buildItems (w : World) (bookings statuses : List StoreObj) (i : Item) :
    i ∈ buildItems w bookings statuses
      ↔ ∃ b ∈ bookings, toItem (buildStatusMap w statuses) b = i := by
  unfold buildItems jsSort
  rw [(List.perm_insertionSort _ _).mem_iff, List.mem_map]

theorem toItem_status_ne_empty (m : List (String × StatusInfo)) (b : StoreObj) :
    (toItem m b).status ≠ "" := by
  simp only [toItem]
  exact orElse_ne_empty _ _ (orElse_ne_empty _ _ (by decide))

theorem hasStatus_eq_statusIs (w : World) (label : String) (i : Item) (h : i.status ≠ "") :
    hasStatus w label i = statusIs w label i := by
  simp [hasStatus, statusIs, orElse_some_of_ne _ _ h]

theorem countP_three_disjoint {α : Type} (p q r : α → Bool) (l : List α)
    (hpq : ∀ x, p x = true → q x = false) (hpr : ∀ x, p x = true → r x = false)
    (hqr : ∀ x, q x = true → r x = false) :
    l.countP p + l.countP q + l.countP r = l.countP (fun x => p x || q x || r x) := by
  induction l with
  | nil => rfl
  | cons a rest ih =>
    simp only [List.countP_cons]
    rw [← ih]
    have h1 := hpq a
    have h2 := hpr a
    have h3 := hqr a
    cases hp : p a <;> cases hq : q a <;> cases hr : r a <;> simp_all <;> omega

theorem orderedInsert_congr {α : Type} (r s : α → α → Prop) [DecidableRel r] [DecidableRel s]
    (a : α) (l : List α) (h : ∀ x ∈ l, (r a x ↔ s a x)) :
    l.orderedInsert r a = l.orderedInsert s a := by
  induction l with
  | nil => rfl
  | cons b rest ih =>
    have hb := h b (List.mem_cons_self _ _)
    have hrest := ih (fun x hx => h x (List.mem_cons_of_mem _ hx))
    by_cases hr : r a b
    · simp [List.orderedInsert, hr, hb.mp hr]
    · have hs : ¬ s a b := fun e => hr (hb.mpr e)
      simp [List.orderedInsert, hr, hs, hrest]

theorem insertionSort_congr {α : Type} (r s : α → α → Prop) [DecidableRel r] [DecidableRel s]
    (l : List α) (h : ∀ x ∈ l, ∀ y ∈ l, (r x y ↔ s x y)) :
    l.insertionSort r = l.insertionSort s := by
  induction l with
  | nil => rfl
  | cons a rest ih =>
    have hrest := ih (fun x hx y hy =>
      h x (List.mem_cons_of_mem _ hx) y (List.mem_cons_of_mem _ hy))
    simp only [List.insertionSort]
    rw [hrest]
    apply orderedInsert_congr
    intro x hx
    have hx1 : x ∈ rest := (List.perm_insertionSort s rest).mem_iff.mp hx
    exact h a (List.mem_cons_self _ _) x (List.mem_cons_of_mem _ hx1)

theorem mapGet_buildStatusMap_none (w : World) (statuses : List StoreObj) (id : Option String)
    (hno : ∀ s ∈ statuses, statusId s ≠ "" → some (statusId s) ≠ id) :
    mapGet (buildStatusMap w statuses) id = none := by
  cases id with
  | none => rfl
  | some k =>
    have h := lookup_foldl_statusStep_of_ne w statuses [] k
      (fun t ht hne e => hno t ht hne (congrArg some e))
    simpa [mapGet, buildStatusMap] using h

theorem sortLE_iff_of_valid (w : World) (a b : Item) (ta tb : Int)
    (ha : w.parseDate a.created_at = some ta) (hb : w.parseDate b.created_at = some tb) :
    sortLE (dateDiff w) a b = true ↔ tb ≤ ta := by
  simp only [sortLE, dateDiff, ha, hb, decide_eq_true_eq]
  omega

theorem toItem_created_at (m : List (String × StatusInfo)) (b : StoreObj) :
    (toItem m b).created_at = b.created_at := rfl

/-! ## Listing: status merge -/

/-- C7: in the listing, take any bookings and any status submissions, listed
by the store as `pre`, then `s`, then `post`, where `s` carries the non-empty
booking id `k` and a non-empty status, and no submission of `post` carries
`k` (so `s` is the last submission for `k` in scan order). The item of every
booking with id `k` has the lower-cased status of `s` and, as admin_note, the
message of `s`: neither the submissions before `s` nor any created_at value
enters the result. The lowering is that of the world, of which only one fact
is used: it never turns a non-empty string into the empty one, as is the case
of `String.prototype.toLowerCase`. -/
theorem listing_last_status_wins (w : World) (bookings pre post : List StoreObj)
    (s b : StoreObj) (k : String)
    (hb : b ∈ bookings) (hid : b.id = some k)
    (hs : statusId s = k) (hk : k ≠ "")
    (hlast : ∀ t ∈ post, statusId t ≠ k)
    (hstatus : orElse (formData s).status "" ≠ "")
    (hlow : ∀ t, t ≠ "" → w.toLowerCase t ≠ "") :
    toItem (buildStatusMap w (pre ++ s :: post)) b ∈ buildItems w bookings (pre ++ s :: post)
    ∧ (toItem (buildStatusMap w (pre ++ s :: post)) b).id = some k
    ∧ (toItem (buildStatusMap w (pre ++ s :: post)) b).status
        = w.toLowerCase (orElse (formData s).status "")
    ∧ (toItem (buildStatusMap w (pre ++ s :: post)) b).admin_note
        = orElse (formData s).message "" := by
  have hl := lookup_buildStatusMap_last w pre post s k hs hk hlast
  have hlow := hlow _ hstatus
  refine ⟨(mem_buildItems w bookings _ _).mpr ⟨b, hb, rfl⟩, hid, ?_, ?_⟩
  · simp only [toItem, hid, mapGet, hl, Option.map_some', statusInfo]
    exact orElse_some_of_ne _ _ hlow
  · simp only [toItem, hid, mapGet, hl, Option.map_some', statusInfo]
    unfold orElse
    cases (formData s).message with
    | none => rfl
    | some msg =>
      by_cases hm : msg = ""
      · simp [hm]
      · simp [hm]

/-- Witness of C7: the store lists for B1 the newer "Approved" first and the
older "DENIED" last; the item of B1 is denied with the note "sorry". -/
theorem listing_last_status_wins_witness :
    toItem (buildStatusMap (listWorld sampleStatuses) sampleStatuses) (bookingSubmission "B1" "2024-01-02" none)
      ∈ buildItems (listWorld sampleStatuses) sampleBookings sampleStatuses
    ∧ (toItem (buildStatusMap (listWorld sampleStatuses) sampleStatuses)
        (bookingSubmission "B1" "2024-01-02" none)).status = "denied"
    ∧ (toItem (buildStatusMap (listWorld sampleStatuses) sampleStatuses)
        (bookingSubmission "B1" "2024-01-02" none)).admin_note = "sorry" :=
  have h := listing_last_status_wins (listWorld sampleStatuses) sampleBookings
    [statusSubmission "B1" "Approved" "see you then" "2024-01-03"] []
    (statusSubmission "B1" "DENIED" "sorry" "2024-01-02")
    (bookingSubmission "B1" "2024-01-02" none) "B1"
    (List.mem_cons_self _ _) rfl rfl (by decide) (fun _ ht => nomatch ht) (by decide)
    asciiLowerCase_ne_empty
  ⟨h.1, h.2.2.1, h.2.2.2⟩

/-- C8, counterexample: with no status submission at all, the item of booking
B3, whose own record carries the status "weird", has status "weird" and not
"pending". -/
theorem listing_unmatched_own_status_kept :
    (buildItems (listWorld []) sampleBookings []).map (fun i => (i.id, i.status))
      = [(some "B2", "pending"), (some "B1", "pending"), (some "B3", "weird")] := by
  decide

/-- C8, amended: in the listing, the item of a booking for which no status
submission carries its id has the status the booking record itself carries
when that is present and non-empty, "pending" otherwise, and admin_note "". -/
theorem listing_unmatched_defaults (w : World) (bookings statuses : List StoreObj)
    (b : StoreObj) (hb : b ∈ bookings)
    (hno : ∀ s ∈ statuses, statusId s ≠ "" → some (statusId s) ≠ b.id) :
    toItem (buildStatusMap w statuses) b ∈ buildItems w bookings statuses
    ∧ (toItem (buildStatusMap w statuses) b).status = orElse (formData b).status "pending"
    ∧ (truthy (formData b).status = false →
        (toItem (buildStatusMap w statuses) b).status = "pending")
    ∧ (toItem (buildStatusMap w statuses) b).admin_note = "" := by
  have hg := mapGet_buildStatusMap_none w statuses b.id hno
  refine ⟨(mem_buildItems w bookings _ _).mpr ⟨b, hb, rfl⟩, ?_, ?_, ?_⟩
  · simp [toItem, hg, orElse]
  · intro ht
    simp only [toItem, hg, Option.map_none']
    unfold truthy at ht
    unfold orElse
    cases hst : (formData b).status with
    | none => rfl
    | some v =>
      rw [hst] at ht
      have hv : v = "" := by simpa using ht
      simp [hv]
  · simp [toItem, hg, orElse]

/-- Witness of the amended C8: B2 has no status submission and no status of its
own, its item is pending with an empty note. -/
theorem listing_unmatched_defaults_witness :
    (toItem (buildStatusMap (listWorld sampleStatuses) sampleStatuses) (bookingSubmission "B2" "2024-01-03" none)).status
      = "pending"
    ∧ (toItem (buildStatusMap (listWorld sampleStatuses) sampleStatuses)
        (bookingSubmission "B2" "2024-01-03" none)).admin_note = "" :=
  have h := listing_unmatched_defaults (listWorld sampleStatuses) sampleBookings sampleStatuses
    (bookingSubmission "B2" "2024-01-03" none)
    (List.mem_cons_of_mem _ (List.mem_cons_self _ _)) (by decide)
  ⟨h.2.2.1 rfl, h.2.2.2⟩

theorem handleList_ok_inv (w : World) (env : Env) (r : Response) (t : List Call)
    (hres : handleList w env = (Except.ok r, t)) (h200 : r.statusCode = 200) :
    ∃ bookings statuses,
      fetchData w env = (Except.ok (Json.array bookings, Json.array statuses), t)
      ∧ r = listingResponse (buildListing w bookings statuses) := by
  unfold handleList at hres
  split at hres
  · simp only [Prod.mk.injEq, Except.ok.injEq] at hres
    rw [← hres.1] at h200
    simp at h200
  · split at hres
    · simp at hres
    · simp at hres
    · simp at hres
    · rename_i bookings statuses t1 hfd
      simp only [Prod.mk.injEq, Except.ok.injEq] at hres
      refine ⟨bookings, statuses, ?_, ?_⟩
      · rw [hfd, hres.2]
      · rw [← hres.1]; rfl

theorem length_buildItems (w : World) (bookings statuses : List StoreObj) :
    (buildItems w bookings statuses).length = bookings.length := by
  unfold buildItems jsSort
  rw [List.length_insertionSort, List.length_map]

theorem filter_hasStatus_length (w : World) (bookings statuses : List StoreObj)
    (label : String) :
    ((buildItems w bookings statuses).filter (hasStatus w label)).length
      = (buildItems w bookings statuses).countP (statusIs w label) := by
  rw [← List.countP_eq_length_filter]
  apply List.countP_congr
  intro i hi
  obtain ⟨b, _, rfl⟩ := (mem_buildItems w bookings statuses i).mp hi
  rw [hasStatus_eq_statusIs w label _ (toItem_status_ne_empty _ b)]

/-! ## Listing: counts and order -/

/-- C9: for every listing answered with status 200, the store returned an array
of booking submissions and the body is a listing whose total is the number of
its items, which is the number of booking submissions returned; pending,
approved and denied are the numbers of items whose lower-cased status is
"pending", "approved" and "denied"; their sum is the number of items whose
lower-cased status is one of the three, so an item with another status is
counted in none of them and the sum is at most total. -/
theorem handleList_counts (w : World) (env : Env) (r : Response) (t : List Call)
    (hres : handleList w env = (Except.ok r, t)) (h200 : r.statusCode = 200) :
    ∃ bookings statuses res,
      fetchData w env = (Except.ok (Json.array bookings, Json.array statuses), t)
      ∧ r.body = Payload.listing res
      ∧ res.total = res.items.length
      ∧ res.items.length = bookings.length
      ∧ res.pending = res.items.countP (statusIs w "pending")
      ∧ res.approved = res.items.countP (statusIs w "approved")
      ∧ res.denied = res.items.countP (statusIs w "denied")
      ∧ res.pending + res.approved + res.denied
          = res.items.countP
              (fun i => statusIs w "pending" i || statusIs w "approved" i || statusIs w "denied" i)
      ∧ res.pending + res.approved + res.denied ≤ res.total := by
  obtain ⟨bookings, statuses, hfd, hr⟩ := handleList_ok_inv w env r t hres h200
  have hp := filter_hasStatus_length w bookings statuses "pending"
  have ha := filter_hasStatus_length w bookings statuses "approved"
  have hd := filter_hasStatus_length w bookings statuses "denied"
  have hsum := countP_three_disjoint (statusIs w "pending") (statusIs w "approved")
    (statusIs w "denied") (buildItems w bookings statuses)
    (fun x h => by
      simp only [statusIs, decide_eq_true_eq] at h
      simp [statusIs, h])
    (fun x h => by
      simp only [statusIs, decide_eq_true_eq] at h
      simp [statusIs, h])
    (fun x h => by
      simp only [statusIs, decide_eq_true_eq] at h
      simp [statusIs, h])
  refine ⟨bookings, statuses, buildListing w bookings statuses, hfd, ?_, rfl,
    length_buildItems w bookings statuses, hp, ha, hd, ?_, ?_⟩
  · rw [hr]; rfl
  · show ((buildItems w bookings statuses).filter (hasStatus w "pending")).length
        + ((buildItems w bookings statuses).filter (hasStatus w "approved")).length
        + ((buildItems w bookings statuses).filter (hasStatus w "denied")).length = _
    rw [hp, ha, hd, hsum]
    rfl
  · show ((buildItems w bookings statuses).filter (hasStatus w "pending")).length
        + ((buildItems w bookings statuses).filter (hasStatus w "approved")).length
        + ((buildItems w bookings statuses).filter (hasStatus w "denied")).length
        ≤ (buildItems w bookings statuses).length
    rw [hp, ha, hd, hsum]
    exact List.countP_le_length _

/-- Witness of C9: three bookings whose merged statuses are pending, approved
and "weird" give total 3, pending 1, approved 1 and denied 0. -/
theorem handleList_counts_witness :
    handleList (listWorld approvedStatuses) fullEnv
      = (Except.ok (listingResponse
           (buildListing (listWorld approvedStatuses) sampleBookings approvedStatuses)),
         [formsCall fullEnv, submissionsCall fullEnv (form "booking" "F1"),
          submissionsCall fullEnv (form "booking-status" "F2")])
    ∧ (buildListing (listWorld approvedStatuses) sampleBookings approvedStatuses).total = 3
    ∧ (buildListing (listWorld approvedStatuses) sampleBookings approvedStatuses).pending = 1
    ∧ (buildListing (listWorld approvedStatuses) sampleBookings approvedStatuses).approved = 1
    ∧ (buildListing (listWorld approvedStatuses) sampleBookings approvedStatuses).denied = 0
    ∧ ∃ (bookings statuses : List StoreObj) (res : Listing),
        fetchData (listWorld approvedStatuses) fullEnv
          = (Except.ok (Json.array bookings, Json.array statuses),
             [formsCall fullEnv, submissionsCall fullEnv (form "booking" "F1"),
              submissionsCall fullEnv (form "booking-status" "F2")])
        ∧ (listingResponse
            (buildListing (listWorld approvedStatuses) sampleBookings approvedStatuses)).body
            = Payload.listing res
        ∧ res.total = bookings.length
        ∧ res.pending + res.approved + res.denied ≤ res.total :=
  ⟨rfl, by decide, by decide, by decide, by decide,
   match handleList_counts (listWorld approvedStatuses) fullEnv
       (listingResponse
         (buildListing (listWorld approvedStatuses) sampleBookings approvedStatuses))
       [formsCall fullEnv, submissionsCall fullEnv (form "booking" "F1"),
        submissionsCall fullEnv (form "booking-status" "F2")] rfl rfl with
   | ⟨bookings, statuses, res, h1, h2, h3, h4, _, _, _, _, h9⟩ =>
     ⟨bookings, statuses, res, h1, h2, h3.trans h4, h9⟩⟩

/-- C10: when the created_at of every booking parses to a valid time value,
the items of the listing are a permutation of the merged bookings in which
every item is at least as recent as each item after it, in particular as the
item right after it: the order is newest first. -/
theorem buildItems_newest_first (w : World) (bookings statuses : List StoreObj)
    (hvalid : ∀ b ∈ bookings, w.parseDate b.created_at ≠ none) :
    (buildItems w bookings statuses).Perm (bookings.map (toItem (buildStatusMap w statuses)))
    ∧ (buildItems w bookings statuses).Chain' (notOlder w)
    ∧ (buildItems w bookings statuses).Pairwise (notOlder w) := by
  have hperm : (buildItems w bookings statuses).Perm
      (bookings.map (toItem (buildStatusMap w statuses))) := by
    unfold buildItems jsSort
    exact List.perm_insertionSort _ _
  have hval : ∀ i ∈ bookings.map (toItem (buildStatusMap w statuses)),
      ∃ ti, w.parseDate i.created_at = some ti := by
    intro i hi
    obtain ⟨b, hb, rfl⟩ := List.mem_map.mp hi
    rw [toItem_created_at]
    exact Option.ne_none_iff_exists'.mp (hvalid b hb)
  have hpair : (buildItems w bookings statuses).Pairwise (notOlder w) := by
    let key : Item → Int := fun i => (w.parseDate i.created_at).getD 0
    let s : Item → Item → Prop := fun a b => key b ≤ key a
    haveI : DecidableRel s := fun a b => Int.decLe (key b) (key a)
    haveI : IsTotal Item s := ⟨fun a b => le_total (key b) (key a)⟩
    haveI : IsTrans Item s := ⟨fun a b c hab hbc => le_trans hbc hab⟩
    have hcongr : buildItems w bookings statuses
        = (bookings.map (toItem (buildStatusMap w statuses))).insertionSort s := by
      unfold buildItems jsSort
      apply insertionSort_congr
      intro x hx y hy
      obtain ⟨tx, htx⟩ := hval x hx
      obtain ⟨ty, hty⟩ := hval y hy
      rw [sortLE_iff_of_valid w x y tx ty htx hty]
      show ty ≤ tx ↔ (w.parseDate y.created_at).getD 0 ≤ (w.parseDate x.created_at).getD 0
      rw [htx, hty]
      rfl
    have hsorted : (buildItems w bookings statuses).Pairwise s := by
      rw [hcongr]
      exact List.sorted_insertionSort s _
    refine hsorted.imp_of_mem ?_
    intro a b ha hb hab
    obtain ⟨ta, hta⟩ := hval a (hperm.mem_iff.mp ha)
    obtain ⟨tb, htb⟩ := hval b (hperm.mem_iff.mp hb)
    refine ⟨ta, tb, hta, htb, ?_⟩
    have h : (w.parseDate b.created_at).getD 0 ≤ (w.parseDate a.created_at).getD 0 := hab
    rw [hta, htb] at h
    exact h
  exact ⟨hperm, hpair.chain', hpair⟩

/-- Witness of C10: the three sample bookings, created on the 2nd, the 3rd and
the 1st of January, are listed as B2, B1, B3. -/
theorem buildItems_newest_first_witness :
    (buildItems (listWorld sampleStatuses) sampleBookings sampleStatuses).map Item.id
      = [some "B2", some "B1", some "B3"]
    ∧ (buildItems (listWorld sampleStatuses) sampleBookings sampleStatuses).Chain'
        (notOlder (listWorld sampleStatuses)) :=
  ⟨by decide,
   (buildItems_newest_first (listWorld sampleStatuses) sampleBookings sampleStatuses
     (by decide)).2.1⟩

end AdminApi
